import Mathlib

/-!
Verification development for the sunheart-core repository.

The definitions below are a shallow embedding of the evolution-thread goal
machinery (`src/.ai/evolution/threads.py`) and of the protocol harmonizer
(`src/.ai/protocols/harmonizer.py`).  Python integers become `Int` (or `Nat`
for counters), timestamps become `Nat` values threaded in explicitly as a
`now` argument, optional values become `Option`, and JSON dictionaries become
structures.  Storage I/O (GitHub file writes) is modelled as pure state
passing: the JSON documents a component reads and writes become fields of an
explicit state record.
-/

/-! ## Data model: evolution goals, steps and threads -/

/-- Embedding of the `EvolutionGoal` class (threads.py, lines 28-127).
Timestamps are abstracted to `Nat`; `None` becomes `none`. -/
structure EvolutionGoal where
  goal_id : String
  name : String
  description : String
  success_criteria : List String
  priority : Int
  dependencies : List String
  estimated_steps : Option Int
  status : String
  progress : Int
  created_at : Nat
  started_at : Option Nat
  completed_at : Option Nat
  last_updated : Nat
  evolution_thread : Option String
deriving Repr, DecidableEq

/-- Embedding of `EvolutionGoal.update_progress` (threads.py, lines 108-127).
The Python guard `if status:` is truthy exactly when the argument is neither
`None` nor the empty string.  Note that the two derivation branches test the
raw `progress` argument while the stored field holds the clamped value, and
that they run after the explicit-status override. -/
def EvolutionGoal.update_progress (g : EvolutionGoal) (progress : Int)
    (status : Option String) (now : Nat) : EvolutionGoal :=
  let g1 := { g with progress := min 100 (max 0 progress) }
  let g2 :=
    match status with
    | some s => if s = "" then g1 else { g1 with status := s }
    | none => g1
  let g3 := { g2 with last_updated := now }
  if progress = 100 ∧ g3.status ≠ "completed" then
    { g3 with status := "completed", completed_at := some now }
  else if 0 < progress ∧ g3.status = "pending" then
    let g4 := { g3 with status := "in_progress" }
    if g4.started_at = none then { g4 with started_at := some now } else g4
  else g3

theorem update_progress_goal_id (g : EvolutionGoal) (p : Int) (s : Option String) (n : Nat) :
    (g.update_progress p s n).goal_id = g.goal_id := by
  unfold EvolutionGoal.update_progress
  cases s <;> dsimp only <;> split_ifs <;> rfl

/-- A template pending goal used for concrete witnesses. -/
def mkPendingGoal (gid : String) (pr : Int) (deps : List String) : EvolutionGoal :=
  { goal_id := gid, name := gid, description := "", success_criteria := [],
    priority := pr, dependencies := deps, estimated_steps := none,
    status := "pending", progress := 0, created_at := 0,
    started_at := none, completed_at := none, last_updated := 0,
    evolution_thread := none }

/-- C10: an over-100 progress argument is clamped in the stored field but the
completion derivation tests the raw argument, so the goal is left with
progress 100 yet not completed, and `completed_at` is not stamped. -/
theorem c10_over_hundred_not_completed (g : EvolutionGoal) (p : Int) (now : Nat)
    (hs : g.status ≠ "completed") (hp : 100 < p) :
    (g.update_progress p none now).progress = 100 ∧
    (g.update_progress p none now).status ≠ "completed" ∧
    (g.update_progress p none now).completed_at = g.completed_at := by
  unfold EvolutionGoal.update_progress
  dsimp only
  have hne : ¬ (p = 100 ∧ g.status ≠ "completed") := by
    rintro ⟨h, -⟩; omega
  rw [if_neg hne]
  split_ifs with h1 h2 <;>
    refine ⟨by dsimp only; omega, ?_, rfl⟩
  · dsimp only; decide
  · dsimp only; decide
  · exact hs

/-- Witness for C10 at a concrete pending goal and progress argument 105. -/
theorem c10_witness :
    ((mkPendingGoal "g1" 5 []).update_progress 105 none 7).progress = 100 ∧
    ((mkPendingGoal "g1" 5 []).update_progress 105 none 7).status ≠ "completed" ∧
    ((mkPendingGoal "g1" 5 []).update_progress 105 none 7).completed_at =
      (mkPendingGoal "g1" 5 []).completed_at :=
  c10_over_hundred_not_completed (mkPendingGoal "g1" 5 []) 105 7 (by decide) (by decide)

/-- C1 counterexample: a pending goal updated with progress argument 105 ends
with stored progress 100 but status `in_progress`, violating the invariant
`progress == 100 iff status == completed`. -/
theorem c1_counterexample :
    ¬ ((((mkPendingGoal "g1" 5 []).update_progress 105 none 7).progress = 100) ↔
       (((mkPendingGoal "g1" 5 []).update_progress 105 none 7).status = "completed")) := by
  decide

/-- C1 amended: for a goal that is not already completed, an update with no
explicit status and a progress argument within 0..100 restores the invariant
`progress == 100 iff status == completed`. -/
theorem c1_invariant_amended (g : EvolutionGoal) (p : Int) (now : Nat)
    (hs : g.status ≠ "completed") (h0 : 0 ≤ p) (h1 : p ≤ 100) :
    ((g.update_progress p none now).progress = 100 ↔
     (g.update_progress p none now).status = "completed") := by
  unfold EvolutionGoal.update_progress
  dsimp only
  by_cases hp : p = 100
  · rw [if_pos ⟨hp, hs⟩]
    dsimp only
    subst hp
    constructor <;> intro <;> rfl
  · rw [if_neg (by rintro ⟨h, -⟩; exact hp h)]
    split_ifs with h2 h3 <;> dsimp only <;> constructor <;> intro h'
    · omega
    · exact absurd h' (by decide)
    · omega
    · exact absurd h' (by decide)
    · omega
    · exact absurd h' hs

/-- Witness for the amended C1 at a concrete goal and progress value 50. -/
theorem c1_witness :
    (((mkPendingGoal "g2" 5 []).update_progress 50 none 3).progress = 100 ↔
     ((mkPendingGoal "g2" 5 []).update_progress 50 none 3).status = "completed") :=
  c1_invariant_amended (mkPendingGoal "g2" 5 []) 50 3 (by decide) (by decide) (by decide)

/-- C5 counterexample: supplying status `blocked` together with progress 100
does not stand: the completion derivation runs after the override and stamps
`completed`. -/
theorem c5_counterexample :
    ((mkPendingGoal "g1" 5 []).update_progress 100 (some "blocked") 7).status = "completed" ∧
    ((mkPendingGoal "g1" 5 []).update_progress 100 (some "blocked") 7).status ≠ "blocked" := by
  decide

/-- C5 amended: a supplied non-empty status stands unless the derivation
re-fires after the override: with progress 100 the supplied status must be
`completed` to survive, and with positive non-100 progress it must not be
`pending` (else it is promoted to `in_progress`). -/
theorem c5_explicit_status_amended (g : EvolutionGoal) (p : Int) (s : String) (now : Nat)
    (hne : s ≠ "")
    (h100 : p = 100 → s = "completed")
    (hpos : p ≠ 100 → 0 < p → s ≠ "pending") :
    (g.update_progress p (some s) now).status = s := by
  unfold EvolutionGoal.update_progress
  dsimp only
  rw [if_neg hne]
  split_ifs with h1 h2 h3
  · exact (h100 h1.1).symm
  · exfalso
    by_cases hp : p = 100
    · exact absurd ((h100 hp).symm.trans h2.2) (by decide)
    · exact hpos hp h2.1 h2.2
  · exfalso
    by_cases hp : p = 100
    · exact absurd ((h100 hp).symm.trans h2.2) (by decide)
    · exact hpos hp h2.1 h2.2
  · rfl

/-- Witness for the amended C5: explicit status `blocked` with progress 40. -/
theorem c5_witness :
    ((mkPendingGoal "g1" 5 []).update_progress 40 (some "blocked") 7).status = "blocked" :=
  c5_explicit_status_amended (mkPendingGoal "g1" 5 []) 40 "blocked" 7
    (by decide) (by intro h; omega) (by intro _ _; decide)

/-- C7 counterexample: a goal already marked `completed` but carrying a null
`completed_at` (reachable by updating with an explicit `completed` status and
progress below 100) is not stamped by a subsequent `update_progress 100`. -/
theorem c7_counterexample :
    (({ mkPendingGoal "g1" 5 [] with
          status := "completed", progress := 50 }).update_progress 100 none 7).completed_at
      = none := by
  decide

/-- C7 amended: for every goal satisfying the representation invariant that a
completed goal carries a non-null `completed_at` (in particular any goal that
is not yet completed), updating with progress 100 and no explicit status
yields status `completed` and a non-null `completed_at`, and a second such
update leaves `completed_at` unchanged. -/
theorem c7_complete_idempotent (g : EvolutionGoal) (n1 n2 : Nat)
    (hinv : g.status = "completed" → g.completed_at ≠ none) :
    (g.update_progress 100 none n1).status = "completed" ∧
    (g.update_progress 100 none n1).completed_at ≠ none ∧
    ((g.update_progress 100 none n1).update_progress 100 none n2).completed_at =
      (g.update_progress 100 none n1).completed_at := by
  unfold EvolutionGoal.update_progress
  dsimp only
  by_cases hc : g.status = "completed"
  · rw [if_neg (by rintro ⟨-, h⟩; exact h hc)]
    rw [if_neg (by rintro ⟨-, h⟩; rw [hc] at h; exact absurd h (by decide))]
    dsimp only
    rw [if_neg (by rintro ⟨-, h⟩; exact h hc)]
    rw [if_neg (by rintro ⟨-, h⟩; rw [hc] at h; exact absurd h (by decide))]
    exact ⟨hc, hinv hc, rfl⟩
  · rw [if_pos ⟨rfl, hc⟩]
    dsimp only
    rw [if_neg (by rintro ⟨-, h⟩; exact h rfl)]
    rw [if_neg (by rintro ⟨-, h⟩; exact absurd h (by decide))]
    exact ⟨rfl, by simp, rfl⟩

/-- Witness for the amended C7 at a concrete pending goal. -/
theorem c7_witness :
    ((mkPendingGoal "g3" 5 []).update_progress 100 none 11).status = "completed" ∧
    ((mkPendingGoal "g3" 5 []).update_progress 100 none 11).completed_at ≠ none ∧
    (((mkPendingGoal "g3" 5 []).update_progress 100 none 11).update_progress 100 none 12).completed_at =
      ((mkPendingGoal "g3" 5 []).update_progress 100 none 11).completed_at :=
  c7_complete_idempotent (mkPendingGoal "g3" 5 []) 11 12 (by intro h; exact absurd h (by decide))

/-! ## Stable descending sort

Python's `sorted(..., key=..., reverse=True)` and `list.sort(key=...,
reverse=True)` are stable sorts in descending key order: elements with equal
keys keep their input order.  We embed them as a stable insertion sort and
prove the three characterizing properties (permutation, descending pairwise
order, and preservation of the relative order of equal-key elements), plus
the fact that the head is the earliest input element attaining the maximal
key. -/

def insertKeyDesc (key : α → Int) (a : α) : List α → List α
  | [] => [a]
  | b :: l => if key b ≤ key a then a :: b :: l else b :: insertKeyDesc key a l

def sortKeyDesc (key : α → Int) : List α → List α
  | [] => []
  | a :: l => insertKeyDesc key a (sortKeyDesc key l)

/-- The earliest element of a list attaining the maximal key; this is the
spec-side description of the tie-breaking policy ("ties keep whichever
compares first in the input order"). -/
def firstArgmax (key : α → Int) : List α → Option α
  | [] => none
  | a :: l =>
    match firstArgmax key l with
    | none => some a
    | some b => if key b ≤ key a then some a else some b

theorem insertKeyDesc_perm (key : α → Int) (a : α) (l : List α) :
    List.Perm (insertKeyDesc key a l) (a :: l) := by
  induction l with
  | nil => exact List.Perm.refl _
  | cons b t ih =>
    unfold insertKeyDesc
    split_ifs
    · exact List.Perm.refl _
    · exact (ih.cons b).trans (List.Perm.swap a b t)

theorem sortKeyDesc_perm (key : α → Int) (l : List α) :
    List.Perm (sortKeyDesc key l) l := by
  induction l with
  | nil => exact List.Perm.refl _
  | cons a t ih =>
    exact (insertKeyDesc_perm key a (sortKeyDesc key t)).trans (ih.cons a)

theorem insertKeyDesc_pairwise (key : α → Int) (a : α) (l : List α)
    (h : List.Pairwise (fun x y => key y ≤ key x) l) :
    List.Pairwise (fun x y => key y ≤ key x) (insertKeyDesc key a l) := by
  induction l with
  | nil => exact List.pairwise_singleton _ _
  | cons b t ih =>
    rw [List.pairwise_cons] at h
    unfold insertKeyDesc
    split_ifs with hba
    · rw [List.pairwise_cons]
      refine ⟨?_, List.pairwise_cons.mpr h⟩
      intro c hc
      rcases List.mem_cons.mp hc with rfl | hct
      · exact hba
      · exact (h.1 c hct).trans hba
    · rw [List.pairwise_cons]
      refine ⟨?_, ih h.2⟩
      intro c hc
      rcases List.mem_cons.mp ((insertKeyDesc_perm key a t).mem_iff.mp hc) with rfl | hct
      · exact le_of_lt (lt_of_not_le hba)
      · exact h.1 c hct

theorem sortKeyDesc_pairwise (key : α → Int) (l : List α) :
    List.Pairwise (fun x y => key y ≤ key x) (sortKeyDesc key l) := by
  induction l with
  | nil => exact List.Pairwise.nil
  | cons a t ih => exact insertKeyDesc_pairwise key a _ ih

theorem insertKeyDesc_filter_eq (key : α → Int) (a : α) (l : List α) (k : Int) :
    (insertKeyDesc key a l).filter (fun x => key x == k) =
      if key a = k then a :: l.filter (fun x => key x == k)
      else l.filter (fun x => key x == k) := by
  induction l with
  | nil =>
    by_cases h : key a = k
    · simp [insertKeyDesc, List.filter_cons, beq_iff_eq, h]
    · simp [insertKeyDesc, List.filter_cons, beq_iff_eq, h]
  | cons b t ih =>
    unfold insertKeyDesc
    split_ifs with hba hak hak
    · simp [List.filter_cons, hak]
    · simp [List.filter_cons, beq_iff_eq, hak]
    · have hab : key a < key b := lt_of_not_le hba
      have hbk : ¬ key b = k := by omega
      simp [List.filter_cons, ih, beq_iff_eq, hak, hbk]
    · simp [List.filter_cons, ih, beq_iff_eq, hak]

theorem sortKeyDesc_filter_eq (key : α → Int) (l : List α) (k : Int) :
    (sortKeyDesc key l).filter (fun x => key x == k) =
      l.filter (fun x => key x == k) := by
  induction l with
  | nil => rfl
  | cons a t ih =>
    unfold sortKeyDesc
    rw [insertKeyDesc_filter_eq]
    simp only [List.filter_cons, beq_iff_eq]
    by_cases h : key a = k
    · rw [if_pos h, if_pos h, ih]
    · rw [if_neg h, if_neg h, ih]

theorem insertKeyDesc_head (key : α → Int) (a : α) (l : List α) :
    (insertKeyDesc key a l).head? =
      some (match l.head? with
            | none => a
            | some b => if key b ≤ key a then a else b) := by
  cases l with
  | nil => rfl
  | cons b t =>
    unfold insertKeyDesc
    split_ifs with h <;> simp [h]

theorem sortKeyDesc_head (key : α → Int) (l : List α) :
    (sortKeyDesc key l).head? = firstArgmax key l := by
  induction l with
  | nil => rfl
  | cons a t ih =>
    unfold sortKeyDesc firstArgmax
    rw [insertKeyDesc_head, ← ih]
    cases h : (sortKeyDesc key t).head? with
    | none => rfl
    | some b =>
      dsimp only
      split_ifs <;> rfl

/-! ## Evolution threads -/

/-- Embedding of the `EvolutionStep` class (threads.py, lines 129-192).
The opaque payload fields (`changes_made` entries) are kept as strings. -/
structure EvolutionStep where
  step_id : String
  title : String
  description : String
  goals_advanced : List String
  changes_made : List String
  outcome : String
  ai_participants : List String
  timestamp : Nat
  evolution_thread : Option String
deriving Repr, DecidableEq

/-- Embedding of the `EvolutionThread` class (threads.py, lines 194-372). -/
structure EvolutionThread where
  thread_id : String
  name : String
  description : String
  creator : String
  strategy : String
  status : String
  goals : List EvolutionGoal
  steps : List EvolutionStep
  created_at : Nat
  last_evolution : Option Nat
  ai_participants : List String
  repository : String
deriving Repr, DecidableEq

/-- Embedding of `EvolutionThread.add_step` (threads.py, lines 274-283). -/
def EvolutionThread.add_step (t : EvolutionThread) (s : EvolutionStep) (now : Nat) :
    EvolutionThread :=
  { t with steps := t.steps ++ [{ s with evolution_thread := some t.thread_id }],
           last_evolution := some now }

/-- Embedding of `EvolutionThread.add_ai_participant` (threads.py, lines 306-314). -/
def EvolutionThread.add_ai_participant (t : EvolutionThread) (ai : String) : EvolutionThread :=
  if ai ∈ t.ai_participants then t else { t with ai_participants := t.ai_participants ++ [ai] }

/-- Helper for `EvolutionThread.update_goal_progress`: update the first goal
with the given id, returning `none` when no goal matches (the Python loop
returns on the first match). -/
def updateGoalsFirst (goal_id : String) (p : Int) (status : Option String) (now : Nat) :
    List EvolutionGoal → Option (List EvolutionGoal)
  | [] => none
  | g :: gs =>
    if g.goal_id = goal_id then some (g.update_progress p status now :: gs)
    else (updateGoalsFirst goal_id p status now gs).map (fun l => g :: l)

/-- Embedding of `EvolutionThread.update_goal_progress` (threads.py, lines
285-304): returns the Python boolean result together with the updated thread. -/
def EvolutionThread.update_goal_progress (t : EvolutionThread) (goal_id : String)
    (p : Int) (status : Option String) (now : Nat) : Bool × EvolutionThread :=
  match updateGoalsFirst goal_id p status now t.goals with
  | some gs => (true, { t with goals := gs })
  | none => (false, t)

/-- The set of completed goal ids of a thread (threads.py, line 362). -/
def completedGoalIds (t : EvolutionThread) : List String :=
  (t.goals.filter (fun g => g.status == "completed")).map (fun g => g.goal_id)

/-- Embedding of `EvolutionThread.get_next_goals` (threads.py, lines 349-372). -/
def EvolutionThread.get_next_goals (t : EvolutionThread) : List EvolutionGoal :=
  let in_progress_goals := t.goals.filter (fun g => g.status == "in_progress")
  if in_progress_goals ≠ [] then
    sortKeyDesc (fun g => g.priority) in_progress_goals
  else
    let completed := completedGoalIds t
    let next_goals := t.goals.filter
      (fun g => g.status == "pending" && g.dependencies.all (fun d => completed.contains d))
    sortKeyDesc (fun g => g.priority) next_goals

/-- The pending goals of a thread whose dependencies are all completed, in
input order (the `next_goals` accumulator of threads.py, lines 364-370). -/
def eligiblePending (t : EvolutionThread) : List EvolutionGoal :=
  t.goals.filter
    (fun g => g.status == "pending" &&
      g.dependencies.all (fun d => (completedGoalIds t).contains d))

theorem mem_completedGoalIds (t : EvolutionThread) (d : String) :
    d ∈ completedGoalIds t ↔ ∃ c ∈ t.goals, c.status = "completed" ∧ c.goal_id = d := by
  unfold completedGoalIds
  simp only [List.mem_map, List.mem_filter, beq_iff_eq]
  tauto

/-- C3: with no in-progress goal, `get_next_goals` returns exactly the pending
goals whose entire dependency list is contained in the completed goal ids
(a dependency naming an absent goal id is never satisfied), sorted descending
by priority, with ties keeping input order (equal-priority goals appear in the
same relative order as in the goals list). -/
theorem c3_next_goals_no_in_progress (t : EvolutionThread)
    (h : ∀ g ∈ t.goals, g.status ≠ "in_progress") :
    (∀ g, g ∈ t.get_next_goals ↔
       (g ∈ t.goals ∧ g.status = "pending" ∧
        ∀ d ∈ g.dependencies, ∃ c ∈ t.goals, c.status = "completed" ∧ c.goal_id = d))
    ∧ List.Pairwise (fun a b => b.priority ≤ a.priority) t.get_next_goals
    ∧ (∀ p : Int, (t.get_next_goals).filter (fun g => g.priority == p)
        = (eligiblePending t).filter (fun g => g.priority == p))
    ∧ List.Perm t.get_next_goals (eligiblePending t) := by
  have hnil : t.goals.filter (fun g => g.status == "in_progress") = [] :=
    List.filter_eq_nil_iff.mpr (fun g hg => by simpa using h g hg)
  have hng : t.get_next_goals = sortKeyDesc (fun g => g.priority) (eligiblePending t) := by
    unfold EvolutionThread.get_next_goals
    rw [if_neg (by simp [hnil])]
    rfl
  refine ⟨?_, ?_, ?_, ?_⟩
  · intro g
    rw [hng, (sortKeyDesc_perm _ _).mem_iff]
    unfold eligiblePending
    simp only [List.mem_filter, Bool.and_eq_true, beq_iff_eq, List.all_eq_true]
    constructor
    · rintro ⟨hg, hs, hdeps⟩
      refine ⟨hg, hs, fun d hd => ?_⟩
      exact (mem_completedGoalIds t d).mp (List.elem_iff.mp (hdeps d hd))
    · rintro ⟨hg, hs, hdeps⟩
      refine ⟨hg, hs, fun d hd => ?_⟩
      exact List.elem_iff.mpr ((mem_completedGoalIds t d).mpr (hdeps d hd))
  · rw [hng]; exact sortKeyDesc_pairwise _ _
  · intro p; rw [hng]; exact sortKeyDesc_filter_eq _ _ p
  · rw [hng]; exact sortKeyDesc_perm _ _

/-- Witness thread: two completed goals, one pending goal depending on one of
them (eligible), one pending goal depending on an absent id (blocked). -/
def witnessThread : EvolutionThread :=
  { thread_id := "t1", name := "t1", description := "", creator := "ai1",
    strategy := "incremental", status := "active",
    goals :=
      [ { mkPendingGoal "a" 5 [] with status := "completed", progress := 100 },
        { mkPendingGoal "b" 4 [] with status := "completed", progress := 100 },
        mkPendingGoal "c" 7 ["a"],
        mkPendingGoal "d" 9 ["missing"] ],
    steps := [], created_at := 0, last_evolution := none,
    ai_participants := ["ai1"], repository := "sunheart-core" }

/-- Witness for C3: on the concrete witness thread (no in-progress goal), the
membership characterization holds for the eligible goal `c`. -/
theorem c3_witness :
    mkPendingGoal "c" 7 ["a"] ∈ witnessThread.get_next_goals ↔
      (mkPendingGoal "c" 7 ["a"] ∈ witnessThread.goals ∧
       (mkPendingGoal "c" 7 ["a"]).status = "pending" ∧
       ∀ d ∈ (mkPendingGoal "c" 7 ["a"]).dependencies,
         ∃ c ∈ witnessThread.goals, c.status = "completed" ∧ c.goal_id = d) :=
  (c3_next_goals_no_in_progress witnessThread (by decide)).1 (mkPendingGoal "c" 7 ["a"])

/-- C4: with at least one in-progress goal, `get_next_goals` returns exactly
the in-progress goals, sorted descending by priority with ties keeping input
order, and contains no pending goal regardless of dependency eligibility. -/
theorem c4_next_goals_in_progress (t : EvolutionThread)
    (h : ∃ g ∈ t.goals, g.status = "in_progress") :
    (∀ g, g ∈ t.get_next_goals ↔ (g ∈ t.goals ∧ g.status = "in_progress"))
    ∧ List.Pairwise (fun a b => b.priority ≤ a.priority) t.get_next_goals
    ∧ (∀ p : Int, (t.get_next_goals).filter (fun g => g.priority == p)
        = (t.goals.filter (fun g => g.status == "in_progress")).filter
            (fun g => g.priority == p))
    ∧ (∀ g ∈ t.get_next_goals, g.status ≠ "pending") := by
  obtain ⟨g0, hg0, hs0⟩ := h
  have hne : t.goals.filter (fun g => g.status == "in_progress") ≠ [] := by
    intro hnil
    have hm : g0 ∈ t.goals.filter (fun g => g.status == "in_progress") :=
      List.mem_filter.mpr ⟨hg0, by simpa using hs0⟩
    rw [hnil] at hm
    exact absurd hm (List.not_mem_nil g0)
  have hng : t.get_next_goals = sortKeyDesc (fun g => g.priority)
      (t.goals.filter (fun g => g.status == "in_progress")) := by
    unfold EvolutionThread.get_next_goals
    rw [if_pos hne]
  have hmem : ∀ g, g ∈ t.get_next_goals ↔ (g ∈ t.goals ∧ g.status = "in_progress") := by
    intro g
    rw [hng, (sortKeyDesc_perm _ _).mem_iff]
    simp [List.mem_filter]
  refine ⟨hmem, ?_, ?_, ?_⟩
  · rw [hng]; exact sortKeyDesc_pairwise _ _
  · intro p; rw [hng]; exact sortKeyDesc_filter_eq _ _ p
  · intro g hg
    have := (hmem g).mp hg
    rw [this.2]
    decide

/-- Witness thread with an in-progress goal alongside an eligible pending goal. -/
def witnessThreadIP : EvolutionThread :=
  { witnessThread with
      goals :=
        [ { mkPendingGoal "a" 5 [] with status := "completed", progress := 100 },
          { mkPendingGoal "e" 3 [] with status := "in_progress", progress := 30 },
          mkPendingGoal "c" 7 ["a"] ] }

/-- Witness for C4 on a concrete thread with one in-progress goal: the
membership characterization instantiated at that goal. -/
theorem c4_witness :
    { mkPendingGoal "e" 3 [] with status := "in_progress", progress := 30 }
        ∈ witnessThreadIP.get_next_goals ↔
      ({ mkPendingGoal "e" 3 [] with status := "in_progress", progress := 30 }
          ∈ witnessThreadIP.goals ∧
       EvolutionGoal.status
         { mkPendingGoal "e" 3 [] with status := "in_progress", progress := 30 }
         = "in_progress") :=
  (c4_next_goals_in_progress witnessThreadIP
    ⟨{ mkPendingGoal "e" 3 [] with status := "in_progress", progress := 30 },
      by decide, rfl⟩).1
    { mkPendingGoal "e" 3 [] with status := "in_progress", progress := 30 }

/-! ## Adding evolution steps -/

/-- One iteration of the goals_advanced loop of
`SelfEvolvingThreads.add_evolution_step` (threads.py, lines 610-615): scan the
goals and, at each goal matching the id, recompute progress as
`min(100, progress + 10)` and apply the thread-level update (which itself
writes to the first matching goal).  The Python loop iterates the live list,
but every update touches only the first matching goal, whose position is the
same in the live list and in the snapshot, so elements visited after it
coincide with the snapshot. -/
def stepAdvanceOne (gid : String) (now : Nat) (t : EvolutionThread) : EvolutionThread :=
  t.goals.foldl
    (fun th g =>
      if g.goal_id = gid then
        (th.update_goal_progress gid (min 100 (g.progress + 10)) none now).2
      else th)
    t

/-- Embedding of the pure part of `SelfEvolvingThreads.add_evolution_step`
(threads.py, lines 558-625): append the step, register the participant, then
advance each goal named in `goals_advanced` by the fixed +10 capped at 100. -/
def add_evolution_step (t : EvolutionThread) (step : EvolutionStep) (ai : String)
    (now : Nat) : EvolutionThread :=
  let t1 := t.add_step step now
  let t2 := t1.add_ai_participant ai
  step.goals_advanced.foldl (fun th gid => stepAdvanceOne gid now th) t2

theorem foldlAdvance_no_match (gid : String) (now : Nat) (l : List EvolutionGoal)
    (th : EvolutionThread) (h : ∀ g ∈ l, g.goal_id ≠ gid) :
    l.foldl
      (fun th g =>
        if g.goal_id = gid then
          (th.update_goal_progress gid (min 100 (g.progress + 10)) none now).2
        else th)
      th = th := by
  induction l generalizing th with
  | nil => rfl
  | cons g gs ih =>
    rw [List.foldl_cons, if_neg (h g (List.mem_cons_self g gs))]
    exact ih th (fun x hx => h x (List.mem_cons_of_mem g hx))

theorem updateGoalsFirst_append (gid : String) (p : Int) (st : Option String) (now : Nat)
    (s : List EvolutionGoal) (g : EvolutionGoal) (rest : List EvolutionGoal)
    (hs : ∀ x ∈ s, x.goal_id ≠ gid) (hg : g.goal_id = gid) :
    updateGoalsFirst gid p st now (s ++ g :: rest)
      = some (s ++ g.update_progress p st now :: rest) := by
  induction s with
  | nil => simp [updateGoalsFirst, hg]
  | cons a s ih =>
    rw [List.cons_append]
    unfold updateGoalsFirst
    rw [if_neg (hs a (List.mem_cons_self a s))]
    rw [ih (fun x hx => hs x (List.mem_cons_of_mem a hx))]
    rfl

theorem map_no_match (gid : String) (now : Nat) (l : List EvolutionGoal)
    (h : ∀ x ∈ l, x.goal_id ≠ gid) :
    l.map (fun g =>
      if g.goal_id = gid then g.update_progress (min 100 (g.progress + 10)) none now
      else g) = l := by
  induction l with
  | nil => rfl
  | cons a l ih =>
    rw [List.map_cons, if_neg (h a (List.mem_cons_self a l)),
      ih (fun x hx => h x (List.mem_cons_of_mem a hx))]

theorem stepAdvanceOne_goals (gid : String) (now : Nat) (t : EvolutionThread)
    (hgn : (t.goals.map (fun g => g.goal_id)).Nodup) :
    stepAdvanceOne gid now t =
      { t with goals := t.goals.map (fun g =>
          if g.goal_id = gid then g.update_progress (min 100 (g.progress + 10)) none now
          else g) } := by
  by_cases hmem : ∃ g ∈ t.goals, g.goal_id = gid
  · obtain ⟨g, hg, hgid⟩ := hmem
    obtain ⟨s, rest, hsplit⟩ := List.append_of_mem hg
    have hnd' : ((s ++ g :: rest).map (fun g => g.goal_id)).Nodup := by
      rw [← hsplit]; exact hgn
    rw [List.map_append, List.map_cons, List.nodup_append] at hnd'
    have hs : ∀ x ∈ s, x.goal_id ≠ gid := by
      intro x hx hxid
      exact hnd'.2.2 (List.mem_map_of_mem _ hx)
        (by rw [hgid, ← hxid]; exact List.mem_cons_self _ _)
    have hr : ∀ x ∈ rest, x.goal_id ≠ gid := by
      intro x hx hxid
      exact (List.nodup_cons.mp hnd'.2.1).1
        (by rw [hgid, ← hxid]; exact List.mem_map_of_mem _ hx)
    unfold stepAdvanceOne
    rw [hsplit, List.foldl_append,
      foldlAdvance_no_match gid now s t hs, List.foldl_cons, if_pos hgid]
    have hupd : (t.update_goal_progress gid (min 100 (g.progress + 10)) none now).2
        = { t with goals :=
              s ++ g.update_progress (min 100 (g.progress + 10)) none now :: rest } := by
      unfold EvolutionThread.update_goal_progress
      rw [hsplit, updateGoalsFirst_append gid _ none now s g rest hs hgid]
    rw [hupd, foldlAdvance_no_match gid now rest _ hr, List.map_append, List.map_cons,
      map_no_match gid now s hs, map_no_match gid now rest hr, if_pos hgid]
  · push_neg at hmem
    unfold stepAdvanceOne
    rw [foldlAdvance_no_match gid now t.goals t hmem, map_no_match gid now t.goals hmem]

theorem advance_fold_goals (now : Nat) (gids : List String) (t : EvolutionThread)
    (hnd : gids.Nodup) (hgn : (t.goals.map (fun g => g.goal_id)).Nodup) :
    (gids.foldl (fun th gid => stepAdvanceOne gid now th) t).goals =
      t.goals.map (fun g =>
        if g.goal_id ∈ gids then g.update_progress (min 100 (g.progress + 10)) none now
        else g) := by
  induction gids generalizing t with
  | nil =>
    rw [List.foldl_nil]
    simp
  | cons gid gids ih =>
    rw [List.foldl_cons]
    obtain ⟨hgid_notin, hnd'⟩ := List.nodup_cons.mp hnd
    have h1 := stepAdvanceOne_goals gid now t hgn
    have hgn' : ((stepAdvanceOne gid now t).goals.map (fun g => g.goal_id)).Nodup := by
      rw [h1]
      dsimp only
      rw [List.map_map]
      have : ((fun g => g.goal_id) ∘ fun g =>
          if g.goal_id = gid then g.update_progress (min 100 (g.progress + 10)) none now
          else g) = fun g : EvolutionGoal => g.goal_id := by
        funext g
        by_cases h : g.goal_id = gid
        · simp only [Function.comp, if_pos h, update_progress_goal_id]
        · simp only [Function.comp, if_neg h]
      rw [this]
      exact hgn
    rw [ih _ hnd' hgn', h1]
    dsimp only
    rw [List.map_map]
    apply List.map_congr_left
    intro g _
    dsimp only [Function.comp]
    by_cases h : g.goal_id = gid
    · have hno : (g.update_progress (min 100 (g.progress + 10)) none now).goal_id ∉ gids := by
        rw [update_progress_goal_id, h]; exact hgid_notin
      have hin : g.goal_id ∈ gid :: gids := by rw [h]; exact List.mem_cons_self gid gids
      rw [if_pos h, if_neg hno, if_pos hin]
    · rw [if_neg h]
      by_cases h2 : g.goal_id ∈ gids
      · rw [if_pos h2, if_pos (List.mem_cons_of_mem gid h2)]
      · have hnot : g.goal_id ∉ gid :: gids := fun hmem => (List.mem_cons.mp hmem).elim h h2
        rw [if_neg h2, if_neg hnot]

/-- Concrete thread for the C6 example: a single in-progress goal at 95%. -/
def witnessThread95 : EvolutionThread :=
  { witnessThread with
      goals := [ { mkPendingGoal "g1" 5 [] with
                     status := "in_progress", progress := 95, started_at := some 1 } ] }

/-- Concrete step advancing goal g1. -/
def witnessStep : EvolutionStep :=
  { step_id := "s1", title := "s", description := "", goals_advanced := ["g1"],
    changes_made := [], outcome := "", ai_participants := ["ai2"], timestamp := 0,
    evolution_thread := none }

/-- C6: `add_evolution_step` updates exactly the goals whose id occurs in the
step's `goals_advanced` list, applying the progress-update rule at
`min(100, progress + 10)`; goals whose id is not advanced, and advanced ids
matching no goal, leave the goals unchanged.  The stored progress after such
an update is exactly `min(100, progress + 10)`, and in particular a goal at
95% ends at progress 100 with status `completed`. -/
theorem c6_step_advances_goals (t : EvolutionThread) (step : EvolutionStep) (ai : String)
    (now : Nat) (hnd : step.goals_advanced.Nodup)
    (hgn : (t.goals.map (fun g => g.goal_id)).Nodup) :
    ((add_evolution_step t step ai now).goals =
      t.goals.map (fun g =>
        if g.goal_id ∈ step.goals_advanced then
          g.update_progress (min 100 (g.progress + 10)) none now
        else g))
    ∧ (∀ g : EvolutionGoal, 0 ≤ g.progress →
        (g.update_progress (min 100 (g.progress + 10)) none now).progress
          = min 100 (g.progress + 10))
    ∧ ((add_evolution_step witnessThread95 witnessStep "ai2" 9).goals.map
        (fun g => (g.progress, g.status)) = [(100, "completed")]) := by
  refine ⟨?_, ?_, ?_⟩
  · unfold add_evolution_step
    have hgoals : ((t.add_step step now).add_ai_participant ai).goals = t.goals := by
      unfold EvolutionThread.add_step EvolutionThread.add_ai_participant
      split_ifs <;> rfl
    rw [advance_fold_goals now step.goals_advanced _ hnd (by rw [hgoals]; exact hgn), hgoals]
  · intro g hp
    unfold EvolutionGoal.update_progress
    dsimp only
    split_ifs <;> dsimp only <;> omega
  · rfl

/-- Witness for C6: the concrete 95% example, extracted by applying the
theorem at the concrete thread and step. -/
theorem c6_witness :
    (add_evolution_step witnessThread95 witnessStep "ai2" 9).goals.map
      (fun g => (g.progress, g.status)) = [(100, "completed")] :=
  (c6_step_advances_goals witnessThread95 witnessStep "ai2" 9
    (by decide) (by decide)).2.2

/-! ## Protocol harmonizer

The harmonizer operates on a set of JSON documents (registry, schema files,
primary-protocol pointer, negotiation log).  We model this document store as
an explicit state record and the GitHub writes as pure updates of it. -/

/-- A registry entry (harmonizer.py, lines 293-299). -/
structure RegistryEntry where
  schema_id : String
  name : String
  version : String
  author : String
  path : String
deriving Repr, DecidableEq

/-- A stored protocol schema file as written by `register_protocol`
(harmonizer.py, lines 259-289); the opaque endpoint and message-format
payloads are kept as strings. -/
structure StoredSchema where
  schema_id : String
  name : String
  version : String
  author : String
  description : String
  endpoints : String
  message_format : String
  capabilities : List String
  compatibility : List String
  created_at : Nat
  usage_count : Nat
deriving Repr, DecidableEq

/-- The primary-protocol pointer document (harmonizer.py, lines 426-431). -/
structure PrimaryPointer where
  primary_protocol : String
  decided_at : Nat
  reason : String
  decided_by : String
deriving Repr, DecidableEq

/-- A negotiation-log event (harmonizer.py, lines 631-636). -/
structure LogEvent where
  timestamp : Nat
  event_type : String
  description : String
  actor : String
deriving Repr, DecidableEq

/-- The document store a `ProtocolHarmonizer` reads and writes: the registry
protocol list, the schema files keyed by schema id, the primary pointer and
the negotiation log. -/
structure HarmonizerState where
  protocols : List RegistryEntry
  schemaFiles : List (String × StoredSchema)
  primary : Option PrimaryPointer
  log : List LogEvent
  last_updated : Option Nat
deriving Repr, DecidableEq

/-- The default protocol's schema id (harmonizer.py, line 111). -/
def defaultSchemaId : String := "builder_core_standard_v1"

/-- The schema files directory (harmonizer.py, line 105). -/
def schemasPath : String := ".ai/protocols/schemas"

/-- Loading a schema file by id (`_load_file` on the schema path). -/
def lookupSchema (st : HarmonizerState) (sid : String) : Option StoredSchema :=
  (st.schemaFiles.find? (fun p => p.1 == sid)).map (fun p => p.2)

/-- `create_or_update_file` on a schema path: overwrite if present, else add. -/
def upsertSchemaFile (files : List (String × StoredSchema)) (k : String)
    (v : StoredSchema) : List (String × StoredSchema) :=
  if files.any (fun p => p.1 == k) then
    files.map (fun p => if p.1 == k then (k, v) else p)
  else files ++ [(k, v)]

/-- Embedding of `ProtocolHarmonizer.set_primary_protocol` (harmonizer.py,
lines 395-453): verify the schema id is in the registry, then overwrite the
primary pointer wholesale and log a `primary_change` event. -/
def set_primary_protocol (st : HarmonizerState) (schema_id reason decided_by : String)
    (now : Nat) : Bool × String × HarmonizerState :=
  if st.protocols.any (fun p => p.schema_id == schema_id) then
    (true, "Primary protocol set to " ++ schema_id,
     { st with
         primary := some
           { primary_protocol := schema_id, decided_at := now,
             reason := reason, decided_by := decided_by },
         log := st.log ++
           [{ timestamp := now, event_type := "primary_change",
              description := "Primary protocol set to " ++ schema_id ++ " by "
                ++ decided_by ++ ": " ++ reason,
              actor := decided_by }] })
  else
    (false, "Protocol schema " ++ schema_id ++ " not found in registry", st)

/-- The current primary schema id, if a primary pointer exists
(harmonizer.py, line 543). -/
def currentPrimaryId (st : HarmonizerState) : Option String :=
  st.primary.map (fun p => p.primary_protocol)

/-- The full schemas loaded during negotiation, in registry order, skipping
registry entries whose schema file is missing (harmonizer.py, lines 534-539). -/
def loadedSchemas (st : HarmonizerState) : List StoredSchema :=
  st.protocols.filterMap (fun e => lookupSchema st e.schema_id)

/-- The negotiation score of a schema (harmonizer.py, lines 547-560). -/
def scoreOf (cur : Option String) (s : StoredSchema) : Nat :=
  s.capabilities.length + s.usage_count * 2 + s.compatibility.length * 3
    + (if s.schema_id = defaultSchemaId then 5 else 0)
    + (if some s.schema_id = cur then 10 else 0)

/-- A score-list entry (harmonizer.py, lines 562-566). -/
structure ScoreEntry where
  schema_id : String
  name : String
  score : Nat
deriving Repr, DecidableEq

/-- The score list built during negotiation, in registry order. -/
def scoresOf (st : HarmonizerState) : List ScoreEntry :=
  (loadedSchemas st).map
    (fun s => { schema_id := s.schema_id, name := s.name,
                score := scoreOf (currentPrimaryId st) s })

/-- The automatic-negotiation reason string (harmonizer.py, line 575). -/
def negotiationReason (score : Nat) : String :=
  "Automatic negotiation: highest scoring protocol (" ++ toString score ++ " points)"

/-- Embedding of `ProtocolHarmonizer._negotiate_primary_protocol`
(harmonizer.py, lines 517-587).  With at most one registry entry it returns
immediately; otherwise it scores the loaded schemas, sorts descending by
score (Python's stable `list.sort(reverse=True)`), and if the top entry is
not the current primary, writes the pointer through `set_primary_protocol`.
An empty score list raises IndexError in Python, caught by the surrounding
handler with no document written, hence the identity branch. -/
def negotiate (now : Nat) (st : HarmonizerState) : HarmonizerState :=
  if st.protocols.length ≤ 1 then st
  else
    match sortKeyDesc (fun e => (e.score : Int)) (scoresOf st) with
    | [] => st
    | top :: _ =>
      if some top.schema_id ≠ currentPrimaryId st then
        (set_primary_protocol st top.schema_id (negotiationReason top.score)
          "ProtocolHarmonizer" now).2.2
      else st

/-- A submitted protocol schema (a Python dict): every key may be absent. -/
structure SchemaInput where
  name : Option String
  version : Option String
  author : Option String
  description : Option String
  endpoints : Option String
  message_format : Option String
  capabilities : Option (List String)
  compatibility : Option (List String)
  schema_id : Option String
deriving Repr, DecidableEq

/-- The required-field list of `register_protocol` (harmonizer.py, line 253). -/
def requiredFields : List String :=
  ["name", "version", "author", "description", "endpoints", "message_format",
   "capabilities"]

/-- Dictionary key presence for a submitted schema (`field in schema`). -/
def hasField (s : SchemaInput) : String → Bool
  | "name" => s.name.isSome
  | "version" => s.version.isSome
  | "author" => s.author.isSome
  | "description" => s.description.isSome
  | "endpoints" => s.endpoints.isSome
  | "message_format" => s.message_format.isSome
  | "capabilities" => s.capabilities.isSome
  | "compatibility" => s.compatibility.isSome
  | "schema_id" => s.schema_id.isSome
  | _ => false

/-- The missing required fields, in required-field order (harmonizer.py,
line 254). -/
def missingFields (s : SchemaInput) : List String :=
  requiredFields.filter (fun f => !(hasField s f))

/-- Python's single-character `str.replace(a, b)`, embedded character-wise. -/
def replaceChar (a b : Char) (s : String) : String :=
  String.mk (s.data.map (fun c => if c = a then b else c))

/-- Python's `str.lower()`, embedded character-wise. -/
def lowerString (s : String) : String :=
  String.mk (s.data.map Char.toLower)

/-- The schema id used for registration: the supplied one, else derived from
name and version, lower-cased with spaces and dots turned into underscores
(harmonizer.py, lines 259-263). -/
def derivedSchemaId (s : SchemaInput) : String :=
  match s.schema_id with
  | some sid => sid
  | none =>
      replaceChar ' ' '_' (lowerString (s.name.getD "")) ++ "_"
        ++ replaceChar '.' '_' (s.version.getD "")

/-- Embedding of `ProtocolHarmonizer.register_protocol` (harmonizer.py, lines
236-327): validate required fields, derive the schema id, reject duplicates,
then write the completed schema file, append the registry entry, log the
registration and run negotiation.  Returns the Python (success, message) pair
together with the updated document store. -/
def register_protocol (st : HarmonizerState) (schema : SchemaInput)
    (registering_ai : String) (now : Nat) : Bool × String × HarmonizerState :=
  let missing := missingFields schema
  if missing ≠ [] then
    (false, "Schema missing required fields: " ++ String.intercalate ", " missing, st)
  else
    let schema_id := derivedSchemaId schema
    if st.protocols.any (fun e => e.schema_id == schema_id) then
      (false, "Protocol schema with ID " ++ schema_id ++ " already exists", st)
    else
      let stored : StoredSchema :=
        { schema_id := schema_id,
          name := schema.name.getD "", version := schema.version.getD "",
          author := schema.author.getD "", description := schema.description.getD "",
          endpoints := schema.endpoints.getD "",
          message_format := schema.message_format.getD "",
          capabilities := schema.capabilities.getD [],
          compatibility := schema.compatibility.getD [],
          created_at := now, usage_count := 0 }
      let entry : RegistryEntry :=
        { schema_id := schema_id, name := stored.name, version := stored.version,
          author := stored.author,
          path := schemasPath ++ "/" ++ schema_id ++ ".json" }
      let st1 : HarmonizerState :=
        { st with
            schemaFiles := upsertSchemaFile st.schemaFiles schema_id stored,
            protocols := st.protocols ++ [entry],
            last_updated := some now,
            log := st.log ++
              [{ timestamp := now, event_type := "registration",
                 description := "Protocol " ++ stored.name ++ " registered by "
                   ++ registering_ai,
                 actor := registering_ai }] }
      let st2 := negotiate now st1
      (true, "Protocol schema " ++ schema_id ++ " registered successfully", st2)

/-- The empty document store. -/
def emptyHarmonizerState : HarmonizerState :=
  { protocols := [], schemaFiles := [], primary := none, log := [], last_updated := none }

/-- C8: whenever any required field is absent, registration fails with a
message listing exactly the missing required fields (joined in required-field
order), and the document store is left untouched: no schema file is written
and no registry entry is appended. -/
theorem c8_register_missing_fields (st : HarmonizerState) (schema : SchemaInput)
    (ai : String) (now : Nat) (h : missingFields schema ≠ []) :
    register_protocol st schema ai now
      = (false, "Schema missing required fields: "
          ++ String.intercalate ", " (missingFields schema), st)
    ∧ (∀ f, f ∈ missingFields schema ↔ (f ∈ requiredFields ∧ hasField schema f = false)) := by
  constructor
  · unfold register_protocol
    dsimp only
    rw [if_pos h]
  · intro f
    unfold missingFields
    rw [List.mem_filter]
    simp

/-- A submitted schema with every required field except `capabilities`. -/
def schemaMissingCaps : SchemaInput :=
  { name := some "Test Protocol", version := some "1.0.0", author := some "a",
    description := some "d", endpoints := some "e", message_format := some "m",
    capabilities := none, compatibility := none, schema_id := none }

/-- Witness for C8: registering a schema missing only `capabilities`. -/
theorem c8_witness :
    register_protocol emptyHarmonizerState schemaMissingCaps "ai1" 1
      = (false, "Schema missing required fields: "
          ++ String.intercalate ", " (missingFields schemaMissingCaps),
         emptyHarmonizerState) :=
  (c8_register_missing_fields emptyHarmonizerState schemaMissingCaps "ai1" 1 (by decide)).1

theorem negotiate_preserves (now : Nat) (st : HarmonizerState) :
    (negotiate now st).protocols = st.protocols
    ∧ (negotiate now st).schemaFiles = st.schemaFiles := by
  unfold negotiate
  split_ifs with h
  · exact ⟨rfl, rfl⟩
  · cases hs : sortKeyDesc (fun e => (e.score : Int)) (scoresOf st) with
    | nil => exact ⟨rfl, rfl⟩
    | cons top rest =>
      dsimp only
      split_ifs with h2
      · unfold set_primary_protocol
        split_ifs with h3 <;> exact ⟨rfl, rfl⟩
      · exact ⟨rfl, rfl⟩

theorem register_protocol_success_eq (st : HarmonizerState) (s : SchemaInput)
    (ai : String) (now : Nat)
    (hv : missingFields s = [])
    (hdup : st.protocols.any (fun e => e.schema_id == derivedSchemaId s) = false) :
    register_protocol st s ai now
      = (true, "Protocol schema " ++ derivedSchemaId s ++ " registered successfully",
         negotiate now
           { protocols := st.protocols ++
               [{ schema_id := derivedSchemaId s, name := s.name.getD "",
                  version := s.version.getD "", author := s.author.getD "",
                  path := schemasPath ++ "/" ++ derivedSchemaId s ++ ".json" }],
             schemaFiles := upsertSchemaFile st.schemaFiles (derivedSchemaId s)
               { schema_id := derivedSchemaId s, name := s.name.getD "",
                 version := s.version.getD "", author := s.author.getD "",
                 description := s.description.getD "", endpoints := s.endpoints.getD "",
                 message_format := s.message_format.getD "",
                 capabilities := s.capabilities.getD [],
                 compatibility := s.compatibility.getD [],
                 created_at := now, usage_count := 0 },
             primary := st.primary,
             log := st.log ++
               [{ timestamp := now, event_type := "registration",
                  description := "Protocol " ++ s.name.getD "" ++ " registered by " ++ ai,
                  actor := ai }],
             last_updated := some now }) := by
  unfold register_protocol
  dsimp only
  split_ifs with h1 h2
  · exact absurd hv h1
  · rw [hdup] at h2
    exact absurd h2 (by decide)
  · rfl

theorem register_protocol_dup_eq (st : HarmonizerState) (s : SchemaInput)
    (ai : String) (now : Nat)
    (hv : missingFields s = [])
    (hdup : st.protocols.any (fun e => e.schema_id == derivedSchemaId s) = true) :
    register_protocol st s ai now
      = (false, "Protocol schema with ID " ++ derivedSchemaId s ++ " already exists", st) := by
  unfold register_protocol
  dsimp only
  split_ifs with ha
  · exact absurd hv ha
  · rfl

/-- C9: registering two schemas with the same derived schema id makes the
second registration fail with a duplicate error and leaves the store as it
was after the first registration; the registry then holds exactly one entry
under that id, the one from the first registration. -/
theorem c9_duplicate_registration (st0 : HarmonizerState) (s1 s2 : SchemaInput)
    (ai1 ai2 : String) (n1 n2 : Nat)
    (hv1 : missingFields s1 = []) (hv2 : missingFields s2 = [])
    (hid : derivedSchemaId s2 = derivedSchemaId s1)
    (hfresh : st0.protocols.all (fun e => !(e.schema_id == derivedSchemaId s1)) = true) :
    (register_protocol st0 s1 ai1 n1).1 = true
    ∧ register_protocol (register_protocol st0 s1 ai1 n1).2.2 s2 ai2 n2
        = (false, "Protocol schema with ID " ++ derivedSchemaId s2 ++ " already exists",
           (register_protocol st0 s1 ai1 n1).2.2)
    ∧ (register_protocol st0 s1 ai1 n1).2.2.protocols.filter
        (fun e => e.schema_id == derivedSchemaId s1)
        = [{ schema_id := derivedSchemaId s1, name := s1.name.getD "",
             version := s1.version.getD "", author := s1.author.getD "",
             path := schemasPath ++ "/" ++ derivedSchemaId s1 ++ ".json" }] := by
  have hdup0 : st0.protocols.any (fun e => e.schema_id == derivedSchemaId s1) = false := by
    rw [Bool.eq_false_iff]
    intro hany
    obtain ⟨e, he, hp⟩ := List.any_eq_true.mp hany
    have hall := List.all_eq_true.mp hfresh e he
    rw [hp] at hall
    exact absurd hall (by decide)
  have h1 := register_protocol_success_eq st0 s1 ai1 n1 hv1 hdup0
  have hprot : (register_protocol st0 s1 ai1 n1).2.2.protocols
      = st0.protocols ++
        [{ schema_id := derivedSchemaId s1, name := s1.name.getD "",
           version := s1.version.getD "", author := s1.author.getD "",
           path := schemasPath ++ "/" ++ derivedSchemaId s1 ++ ".json" }] := by
    rw [h1]
    exact (negotiate_preserves n1 _).1
  have hany2 : (register_protocol st0 s1 ai1 n1).2.2.protocols.any
      (fun e => e.schema_id == derivedSchemaId s2) = true := by
    rw [hprot, hid, List.any_eq_true]
    refine ⟨_, List.mem_append_right _ (List.mem_singleton.mpr rfl), ?_⟩
    simp
  refine ⟨by rw [h1], ?_, ?_⟩
  · exact register_protocol_dup_eq _ s2 ai2 n2 hv2 hany2
  · rw [hprot, List.filter_append]
    have hf0 : st0.protocols.filter (fun e => e.schema_id == derivedSchemaId s1) = [] := by
      rw [List.filter_eq_nil_iff]
      intro e he hp
      have hall := List.all_eq_true.mp hfresh e he
      rw [hp] at hall
      exact absurd hall (by decide)
    rw [hf0]
    simp

/-- A fully valid submitted schema for the C9 witness. -/
def fullSchemaInput (auth : String) : SchemaInput :=
  { name := some "Test Protocol", version := some "1.0.0", author := some auth,
    description := some "d", endpoints := some "e", message_format := some "m",
    capabilities := some ["x"], compatibility := none, schema_id := none }

/-- Witness for C9: two registrations deriving the same schema id from the
same name and version; the second fails with the duplicate message. -/
theorem c9_witness :
    register_protocol
        (register_protocol emptyHarmonizerState (fullSchemaInput "a1") "ai1" 1).2.2
        (fullSchemaInput "a2") "ai2" 2
      = (false, "Protocol schema with ID " ++ derivedSchemaId (fullSchemaInput "a2")
          ++ " already exists",
         (register_protocol emptyHarmonizerState (fullSchemaInput "a1") "ai1" 1).2.2) :=
  (c9_duplicate_registration emptyHarmonizerState (fullSchemaInput "a1")
    (fullSchemaInput "a2") "ai1" "ai2" 1 2 (by decide) (by decide) (by decide)
    (by decide)).2.1

theorem firstArgmax_mem (key : α → Int) (l : List α) (a : α)
    (h : firstArgmax key l = some a) : a ∈ l := by
  induction l with
  | nil => exact absurd h (by simp [firstArgmax])
  | cons b t ih =>
    unfold firstArgmax at h
    cases hf : firstArgmax key t with
    | none =>
      rw [hf] at h
      dsimp only at h
      rw [Option.some.injEq] at h
      subst h
      exact List.mem_cons_self _ _
    | some c =>
      rw [hf] at h
      dsimp only at h
      split_ifs at h <;> rw [Option.some.injEq] at h <;> subst h
      · exact List.mem_cons_self _ _
      · exact List.mem_cons_of_mem _ (ih hf)

/-- A well-formed document store: every schema file carries the schema id it
is stored under. -/
def SchemaFilesWF (st : HarmonizerState) : Prop :=
  ∀ p ∈ st.schemaFiles, (p : String × StoredSchema).2.schema_id = p.1

theorem loadedSchemas_id_in_registry (st : HarmonizerState) (hwf : SchemaFilesWF st)
    (s : StoredSchema) (hs : s ∈ loadedSchemas st) :
    st.protocols.any (fun p => p.schema_id == s.schema_id) = true := by
  unfold loadedSchemas at hs
  obtain ⟨e, he, hlk⟩ := List.mem_filterMap.mp hs
  unfold lookupSchema at hlk
  obtain ⟨q, hfind⟩ : ∃ q, st.schemaFiles.find? (fun p => p.1 == e.schema_id) = some q := by
    cases hf : st.schemaFiles.find? (fun p => p.1 == e.schema_id) with
    | none => rw [hf] at hlk; exact absurd hlk (by simp)
    | some q => exact ⟨q, rfl⟩
  rw [hfind] at hlk
  rw [Option.map_some', Option.some.injEq] at hlk
  have hmemq := List.mem_of_find?_eq_some hfind
  have hbeq : (q.1 == e.schema_id) = true := (List.find?_eq_some.mp hfind).1
  have hidq : s.schema_id = e.schema_id := by
    rw [← hlk, hwf q hmemq]
    exact eq_of_beq hbeq
  rw [List.any_eq_true]
  exact ⟨e, he, by rw [hidq]; exact beq_self_eq_true _⟩

/-- The concrete two-schema registry of the C2 example: schema A with two
capabilities and schema B with one capability and usage count 5, no current
primary, neither id equal to the default schema id. -/
def schemaA : StoredSchema :=
  { schema_id := "A", name := "A", version := "1", author := "x", description := "",
    endpoints := "", message_format := "", capabilities := ["c1", "c2"],
    compatibility := [], created_at := 0, usage_count := 0 }

def schemaB : StoredSchema :=
  { schemaA with schema_id := "B", name := "B", capabilities := ["c1"], usage_count := 5 }

def exampleRegistryAB : HarmonizerState :=
  { protocols :=
      [ { schema_id := "A", name := "A", version := "1", author := "x",
          path := schemasPath ++ "/A.json" },
        { schema_id := "B", name := "B", version := "1", author := "x",
          path := schemasPath ++ "/B.json" } ],
    schemaFiles := [("A", schemaA), ("B", schemaB)],
    primary := none, log := [], last_updated := none }

/-- C2: primary-protocol negotiation.  With at most one registry entry it is
the identity on the document store (no pointer write).  The score of a schema
is capabilities + 2*usage + 3*compatibility + 5 for the default schema + 10
for the current primary.  With two or more entries and a well-formed store,
the schema picked is the earliest input-order entry attaining the maximal
score: if it already is the primary nothing changes, otherwise the pointer is
replaced wholesale with the automatic-negotiation reason and decided_by
`ProtocolHarmonizer`, touching neither the registry nor the schema files.  On
the concrete A/B example, B (score 11) becomes primary. -/
theorem c2_negotiation_policy (now : Nat) :
    (∀ st : HarmonizerState, st.protocols.length ≤ 1 → negotiate now st = st)
    ∧ (∀ (cur : Option String) (s : StoredSchema),
        scoreOf cur s = s.capabilities.length + 2 * s.usage_count
          + 3 * s.compatibility.length
          + (if s.schema_id = defaultSchemaId then 5 else 0)
          + (if some s.schema_id = cur then 10 else 0))
    ∧ (∀ st : HarmonizerState, SchemaFilesWF st → 2 ≤ st.protocols.length →
        ∀ top : ScoreEntry,
          firstArgmax (fun e => (e.score : Int)) (scoresOf st) = some top →
          ((currentPrimaryId st = some top.schema_id → negotiate now st = st)
           ∧ (currentPrimaryId st ≠ some top.schema_id →
               (negotiate now st).primary
                   = some { primary_protocol := top.schema_id, decided_at := now,
                            reason := negotiationReason top.score,
                            decided_by := "ProtocolHarmonizer" }
               ∧ (negotiate now st).protocols = st.protocols
               ∧ (negotiate now st).schemaFiles = st.schemaFiles)))
    ∧ ((negotiate now exampleRegistryAB).primary
        = some { primary_protocol := "B", decided_at := now,
                 reason := "Automatic negotiation: highest scoring protocol (11 points)",
                 decided_by := "ProtocolHarmonizer" }) := by
  refine ⟨?_, ?_, ?_, ?_⟩
  · intro st hle
    unfold negotiate
    rw [if_pos hle]
  · intro cur s
    unfold scoreOf
    split_ifs <;> omega
  · intro st hwf hlen top htop
    have hsorted := sortKeyDesc_head (fun e => (e.score : Int)) (scoresOf st)
    rw [htop] at hsorted
    have hnle : ¬ (st.protocols.length ≤ 1) := by omega
    constructor
    · intro hcur
      unfold negotiate
      rw [if_neg hnle]
      cases hs : sortKeyDesc (fun e => (e.score : Int)) (scoresOf st) with
      | nil => rfl
      | cons t rest =>
        rw [hs, List.head?_cons, Option.some.injEq] at hsorted
        subst hsorted
        dsimp only
        split_ifs with hd
        · exact absurd hcur.symm hd
        · rfl
    · intro hcur
      have htopmem : top ∈ scoresOf st := firstArgmax_mem _ _ _ htop
      obtain ⟨s, hsmem, hse⟩ := List.mem_map.mp htopmem
      have hins := loadedSchemas_id_in_registry st hwf s hsmem
      have hid : top.schema_id = s.schema_id := by rw [← hse]
      unfold negotiate
      rw [if_neg hnle]
      cases hs : sortKeyDesc (fun e => (e.score : Int)) (scoresOf st) with
      | nil =>
        rw [hs, List.head?_nil] at hsorted
        exact absurd hsorted (by simp)
      | cons t rest =>
        rw [hs, List.head?_cons, Option.some.injEq] at hsorted
        subst hsorted
        dsimp only
        rw [if_pos (fun h => hcur h.symm)]
        unfold set_primary_protocol
        rw [hid, if_pos hins]
        exact ⟨rfl, rfl, rfl⟩
  · rfl

/-- Witness for C2: on the concrete A/B registry (score A = 2, score B = 11),
negotiation makes B primary with the automatic-negotiation reason. -/
theorem c2_witness :
    (negotiate 3 exampleRegistryAB).primary
      = some { primary_protocol := "B", decided_at := 3,
               reason := "Automatic negotiation: highest scoring protocol (11 points)",
               decided_by := "ProtocolHarmonizer" } :=
  (c2_negotiation_policy 3).2.2.2
